import Mathlib

/- Shallow embedding of the negotiation-and-settlement core of the agents-tac
   trading competition, together with the sandbox status poller of the GUI
   launcher script.  The controller, goods ledger and negotiation session are
   not present under src/ (only documentation, configuration and the GUI
   launcher are), so they are modelled from the specification; the sandbox
   poller is embedded from the GUI launcher source file. -/

namespace AgentsTac

/-- Modelled from the spec: `Holdings` — mapping good-key → integer quantity,
plus a real-valued money balance (real values are represented by rationals). -/
structure Holdings where
  goods : String → Int
  money : ℚ

/-- Modelled from the spec: `TransactionRequest` — {transactionId, buyerId,
sellerId, goodDeltas, amount}; `senderId` records which of the two parties
submitted this copy.  `goodDeltas` is an association list good-key → signed
integer delta added to the sender's holdings. -/
structure TransactionRequest where
  transactionId : String
  buyerId : String
  sellerId : String
  senderId : String
  goodDeltas : List (String × Int)
  amount : ℚ
deriving DecidableEq

/-- Net signed change an association-list delta prescribes for good `g`. -/
def deltaLookup (δ : List (String × Int)) (g : String) : Int :=
  (δ.map (fun p => if p.1 = g then p.2 else 0)).sum

/-- The two delta lists are exact negations of each other, checked on every
key either list mentions (which covers all goods, see `negDeltas_lookup`). -/
def NegDeltas (δ1 δ2 : List (String × Int)) : Prop :=
  ∀ g ∈ (δ1 ++ δ2).map Prod.fst, deltaLookup δ1 g = - deltaLookup δ2 g

instance (δ1 δ2 : List (String × Int)) : Decidable (NegDeltas δ1 δ2) :=
  List.decidableBAll _ _

/-- Money delta of the submitting party: the seller receives `amount`, the
buyer pays it. -/
def moneyDelta (r : TransactionRequest) : ℚ :=
  if r.senderId = r.sellerId then r.amount else - r.amount

/-- Holdings after adding a goods delta and a money delta. -/
def Holdings.applyDelta (h : Holdings) (δ : List (String × Int)) (m : ℚ) : Holdings :=
  { goods := fun g => h.goods g + deltaLookup δ g, money := h.money + m }

/-- Every good mentioned by the delta stays non-negative after applying it. -/
def goodsOk (h : Holdings) (δ : List (String × Int)) : Prop :=
  ∀ g ∈ δ.map Prod.fst, 0 ≤ h.goods g + deltaLookup δ g

instance (h : Holdings) (δ : List (String × Int)) : Decidable (goodsOk h δ) :=
  List.decidableBAll _ _

/-- The money balance stays non-negative after adding the money delta. -/
def moneyOk (h : Holdings) (m : ℚ) : Prop := 0 ≤ h.money + m

instance (h : Holdings) (m : ℚ) : Decidable (moneyOk h m) := by
  unfold moneyOk; infer_instance

/-- Solvency of one party for one side of a trade. -/
def solvent (h : Holdings) (δ : List (String × Int)) (m : ℚ) : Prop :=
  goodsOk h δ ∧ moneyOk h m

instance (h : Holdings) (δ : List (String × Int)) (m : ℚ) : Decidable (solvent h δ m) := by
  unfold solvent; infer_instance

/-- Modelled from the spec: `GoodsLedger` — authoritative per-agent holdings
vector + money balance; `agents` is the finite set of participating agents. -/
structure GoodsLedger where
  agents : Finset String
  hold : String → Holdings

/-- Modelled from the spec: `GoodsLedger.apply` — atomically mutates both
agents' holdings, fails (`none`) with no mutation if any resulting good
quantity or money balance would be negative. -/
def GoodsLedger.apply (L : GoodsLedger) (p1 : String) (δ1 : List (String × Int)) (m1 : ℚ)
    (p2 : String) (δ2 : List (String × Int)) (m2 : ℚ) : Option GoodsLedger :=
  if solvent (L.hold p1) δ1 m1 ∧ solvent (L.hold p2) δ2 m2 then
    some { agents := L.agents,
           hold := Function.update (Function.update L.hold p1 ((L.hold p1).applyDelta δ1 m1))
             p2 ((L.hold p2).applyDelta δ2 m2) }
  else none

/-- Modelled from the spec: the controller's reply to a `submit` call. -/
inductive Outcome where
  | pending : Outcome
  | confirmed (tx : String) (agent1 agent2 : String) : Outcome
  | protocolMismatch (tx : String) (agent1 agent2 : String) : Outcome
  | insufficientFunds (tx : String) (agent1 agent2 : String) : Outcome
  | insufficientGoods (tx : String) (agent1 agent2 : String) : Outcome
  | staleDuplicate : Outcome
  | redelivered (tx : String) (agent : String) : Outcome
deriving DecidableEq

/-- Modelled from the spec: structural agreement of the two sides of a trade:
exact negation of the goods deltas, matching amounts, agreement on the
buyer/seller pair, and the two submitters being exactly that pair. -/
def structMatch (r1 r2 : TransactionRequest) : Prop :=
  NegDeltas r1.goodDeltas r2.goodDeltas ∧ r1.amount = r2.amount ∧
    r1.buyerId = r2.buyerId ∧ r1.sellerId = r2.sellerId ∧
    ((r1.senderId = r1.buyerId ∧ r2.senderId = r2.sellerId) ∨
      (r1.senderId = r1.sellerId ∧ r2.senderId = r2.buyerId))

instance (r1 r2 : TransactionRequest) : Decidable (structMatch r1 r2) := by
  unfold structMatch; infer_instance

/-- Modelled from the spec: controller-owned state: the goods ledger, the
`PendingTransactionPool` (transactionId → the at most one already-received
side, with its arrival time), and the set of already-committed transaction
ids used for idempotent redelivery. -/
structure ControllerState where
  ledger : GoodsLedger
  pending : String → Option (TransactionRequest × Nat)
  committedSet : String → Bool

/-- Modelled from the spec: `Controller.submit` — pool lookup, structural and
solvency validation, atomic commit, idempotent redelivery after commit, and
stale-duplicate discard before commit. -/
def Controller.submit (st : ControllerState) (req : TransactionRequest) (now : Nat) :
    ControllerState × Outcome :=
  let tx := req.transactionId
  if st.committedSet tx then (st, .redelivered tx req.senderId)
  else
    match st.pending tx with
    | none =>
        ({ st with pending := Function.update st.pending tx (some (req, now)) }, .pending)
    | some (first, _) =>
        if first.senderId = req.senderId then (st, .staleDuplicate)
        else if structMatch first req then
          match (st.ledger).apply first.senderId first.goodDeltas (moneyDelta first)
              req.senderId req.goodDeltas (moneyDelta req) with
          | some L =>
              ({ ledger := L,
                 pending := Function.update st.pending tx none,
                 committedSet := Function.update st.committedSet tx true },
               .confirmed tx first.senderId req.senderId)
          | none =>
              ({ st with pending := Function.update st.pending tx none },
               if moneyOk (st.ledger.hold first.senderId) (moneyDelta first) ∧
                   moneyOk (st.ledger.hold req.senderId) (moneyDelta req) then
                 .insufficientGoods tx first.senderId req.senderId
               else .insufficientFunds tx first.senderId req.senderId)
        else
          ({ st with pending := Function.update st.pending tx none },
           .protocolMismatch tx first.senderId req.senderId)

/-- Modelled from the spec: purge of pool entries older than the configured
limit (all pool entries hold exactly one side); returns the purged state and,
per transaction id, the submitting agent notified of the failure. -/
def Controller.purge (st : ControllerState) (now limit : Nat) :
    ControllerState × (String → Option String) :=
  ({ st with
      pending := fun tx =>
        match st.pending tx with
        | some (r, t) => if t + limit < now then none else some (r, t)
        | none => none },
   fun tx =>
     match st.pending tx with
     | some (r, t) => if t + limit < now then some r.senderId else none
     | none => none)

/-- Modelled from the spec: one controller-facing operation. -/
inductive Op where
  | submit (req : TransactionRequest) (now : Nat) : Op
  | purge (now limit : Nat) : Op

/-- The controller state after one operation. -/
def ControllerState.step (st : ControllerState) : Op → ControllerState
  | .submit req now => (Controller.submit st req now).1
  | .purge now limit => (Controller.purge st now limit).1

/-- The controller state after a sequence of operations. -/
def ControllerState.run (st : ControllerState) : List Op → ControllerState
  | [] => st
  | op :: ops => (st.step op).run ops

/-- Indicator: one when running `op` from `st` commits transaction `tx`
(i.e. the submit outcome is a confirmation for `tx`), else zero. -/
def commitsTx (st : ControllerState) (op : Op) (tx : String) : Nat :=
  match op with
  | .submit req now =>
      match (Controller.submit st req now).2 with
      | .confirmed tx' _ _ => if tx' = tx then 1 else 0
      | _ => 0
  | .purge _ _ => 0

/-- Number of operations of `ops` (run from `st`) that commit transaction
`tx`. -/
def commitCount (st : ControllerState) (ops : List Op) (tx : String) : Nat :=
  match ops with
  | [] => 0
  | op :: rest => commitsTx st op tx + commitCount (st.step op) rest tx

/-- Every good quantity and every money balance in the ledger is
non-negative. -/
def GoodsLedger.NonNeg (L : GoodsLedger) : Prop :=
  ∀ a : String, (∀ g : String, 0 ≤ (L.hold a).goods g) ∧ 0 ≤ (L.hold a).money

/-- Modelled from the spec: deterministic `transactionId` derivation — a pure
combine over the canonically (lexicographically) sorted agent-id pair and the
agreed proposal terms. -/
def deriveTxId (a b : String) (terms : String) : String :=
  min a b ++ "_" ++ max a b ++ "_" ++ terms

/-- Modelled from the spec: the NegotiationSession states. -/
inductive SessState where
  | INIT : SessState
  | CFP_SENT : SessState
  | PROPOSED : SessState
  | ACCEPTED : SessState
  | MATCHED : SessState
  | COMMITTED : SessState
  | ABORTED : SessState
deriving DecidableEq

/-- Modelled from the spec: a per-agent-pair-per-deal negotiation session;
`txId` stores the transaction id computed on entering MATCHED. -/
structure NegotiationSession where
  ownId : String
  peerId : String
  terms : String
  state : SessState
  txId : Option String
deriving DecidableEq

/-- Modelled from the spec: the events driving a session.  The booleans stand
for the (pure, pluggable) Strategy decisions. -/
inductive SessEvent where
  | startCFP : SessEvent
  | recvCFP : SessEvent
  | recvProposal (ok : Bool) : SessEvent
  | decide (profitable : Bool) : SessEvent
  | recvMatchedAccept : SessEvent
  | retry : SessEvent
  | recvConfirmation (tx : String) : SessEvent
  | timeout : SessEvent
deriving DecidableEq

/-- Modelled from the spec: the session transition function; the second
component is the transaction id of the TransactionRequest emitted by this
step, if any.  Out-of-state or stale messages are discarded, never fatal. -/
def NegotiationSession.step (s : NegotiationSession) :
    SessEvent → NegotiationSession × Option String
  | .timeout => ({ s with state := .ABORTED }, none)
  | .startCFP =>
      if s.state = .INIT then ({ s with state := .CFP_SENT }, none) else (s, none)
  | .recvCFP =>
      if s.state = .INIT then ({ s with state := .PROPOSED }, none) else (s, none)
  | .recvProposal ok =>
      if s.state = .CFP_SENT then
        ({ s with state := if ok then .PROPOSED else .ABORTED }, none)
      else (s, none)
  | .decide profitable =>
      if s.state = .PROPOSED then
        ({ s with state := if profitable then .ACCEPTED else .ABORTED }, none)
      else (s, none)
  | .recvMatchedAccept =>
      if s.state = .ACCEPTED then
        ({ s with state := .MATCHED, txId := some (deriveTxId s.ownId s.peerId s.terms) },
         some (deriveTxId s.ownId s.peerId s.terms))
      else (s, none)
  | .retry => if s.state = .MATCHED then (s, s.txId) else (s, none)
  | .recvConfirmation tx =>
      if s.state = .MATCHED ∧ s.txId = some tx then
        ({ s with state := .COMMITTED }, none)
      else (s, none)

/-- The transaction ids of the TransactionRequests a session emits along a
trace of events. -/
def NegotiationSession.emissions (s : NegotiationSession) : List SessEvent → List String
  | [] => []
  | e :: evs => (s.step e).2.toList ++ (s.step e).1.emissions evs

/-- Number of steps of the trace that enter the MATCHED state. -/
def NegotiationSession.matchedEntries (s : NegotiationSession) : List SessEvent → Nat
  | [] => 0
  | e :: evs =>
      (if s.state ≠ .MATCHED ∧ (s.step e).1.state = .MATCHED then 1 else 0) +
        (s.step e).1.matchedEntries evs

/-- An HTTP request issued by the GUI launcher script. -/
structure SandboxRequest where
  method : String
  url : String
deriving DecidableEq

/-- From the GUI launcher script (src/unnamed/part_000, `getSandboxStatus`):
one tick issues a GET to "/api/sandboxes/" ++ id exactly when
`currentSandboxID` is non-null, and always reschedules itself. -/
def getSandboxStatus (currentSandboxID : Option String) : List SandboxRequest :=
  match currentSandboxID with
  | some sid => [{ method := "GET", url := "/api/sandboxes/" ++ sid }]
  | none => []

/-- The requests of one poller run: one `getSandboxStatus` tick per element
of `states`, which lists the value of `currentSandboxID` at each 1000 ms
tick. -/
def pollStatusRequests (states : List (Option String)) : List SandboxRequest :=
  match states with
  | [] => []
  | st :: rest => getSandboxStatus st ++ pollStatusRequests rest

/-- The mirrored (counterparty) copy of a transaction request: submitted by
the other party, with the exactly negated goods deltas. -/
def mirror (r : TransactionRequest) : TransactionRequest :=
  { r with
      senderId := if r.senderId = r.sellerId then r.buyerId else r.sellerId,
      goodDeltas := r.goodDeltas.map (fun p => (p.1, -p.2)) }

/-! ### Basic lemmas about deltas -/

theorem deltaLookup_eq_zero {δ : List (String × Int)} {g : String}
    (h : g ∉ δ.map Prod.fst) : deltaLookup δ g = 0 := by
  induction δ with
  | nil => rfl
  | cons p rest ih =>
      simp only [List.map_cons, List.mem_cons] at h
      push_neg at h
      simp only [deltaLookup, List.map_cons, List.sum_cons] at ih ⊢
      rw [if_neg (fun hpg => h.1 hpg.symm), ih h.2, zero_add]

theorem negDeltas_lookup {δ1 δ2 : List (String × Int)} (h : NegDeltas δ1 δ2) :
    ∀ g, deltaLookup δ1 g = - deltaLookup δ2 g := by
  intro g
  by_cases hg : g ∈ (δ1 ++ δ2).map Prod.fst
  · exact h g hg
  · simp only [List.map_append, List.mem_append] at hg
    push_neg at hg
    rw [deltaLookup_eq_zero hg.1, deltaLookup_eq_zero hg.2, neg_zero]

theorem deltaLookup_mapNeg (δ : List (String × Int)) (g : String) :
    deltaLookup (δ.map (fun p => (p.1, -p.2))) g = - deltaLookup δ g := by
  induction δ with
  | nil => rfl
  | cons p rest ih =>
      simp only [deltaLookup, List.map_cons, List.sum_cons] at ih ⊢
      rw [ih, neg_add]
      congr 1
      by_cases hpg : p.1 = g <;> simp [hpg]

theorem negDeltas_mapNeg_left (δ : List (String × Int)) :
    NegDeltas (δ.map (fun p => (p.1, -p.2))) δ := by
  intro g _
  rw [deltaLookup_mapNeg]

theorem negDeltas_mapNeg_right (δ : List (String × Int)) :
    NegDeltas δ (δ.map (fun p => (p.1, -p.2))) := by
  intro g _
  rw [deltaLookup_mapNeg, neg_neg]

/-! ### Sums over updated ledgers -/

theorem sum_update_sub {M : Type} [AddCommGroup M] (s : Finset String) (f : String → M)
    (p : String) (v : M) (hp : p ∈ s) :
    (∑ a ∈ s, Function.update f p v a) = (∑ a ∈ s, f a) + (v - f p) := by
  rw [Finset.sum_update_of_mem hp, Finset.sdiff_singleton_eq_erase,
    Finset.sum_erase_eq_sub hp]
  abel

theorem comp_update (F : String → Holdings) (p : String) (v : Holdings)
    {M : Type} (φ : Holdings → M) :
    (fun a => φ (Function.update F p v a)) = Function.update (fun a => φ (F a)) p (φ v) := by
  funext a
  by_cases ha : a = p
  · subst ha; simp
  · simp [Function.update_noteq ha]

theorem sum_comp_update_two {M : Type} [AddCommGroup M] (s : Finset String)
    (F : String → Holdings) (φ : Holdings → M) (p1 p2 : String) (v1 v2 : Holdings)
    (h1 : p1 ∈ s) (h2 : p2 ∈ s) (hne : p1 ≠ p2) :
    (∑ a ∈ s, φ (Function.update (Function.update F p1 v1) p2 v2 a))
      = (∑ a ∈ s, φ (F a)) + (φ v1 - φ (F p1)) + (φ v2 - φ (F p2)) := by
  have e1 : (fun a => φ (Function.update (Function.update F p1 v1) p2 v2 a))
      = Function.update (Function.update (fun a => φ (F a)) p1 (φ v1)) p2 (φ v2) := by
    rw [comp_update (Function.update F p1 v1) p2 v2 φ, comp_update F p1 v1 φ]
  calc (∑ a ∈ s, φ (Function.update (Function.update F p1 v1) p2 v2 a))
      = ∑ a ∈ s, Function.update (Function.update (fun a => φ (F a)) p1 (φ v1)) p2 (φ v2) a := by
        rw [← e1]
    _ = (∑ a ∈ s, Function.update (fun a => φ (F a)) p1 (φ v1) a)
          + (φ v2 - Function.update (fun a => φ (F a)) p1 (φ v1) p2) := by
        rw [sum_update_sub s _ p2 (φ v2) h2]
    _ = (∑ a ∈ s, φ (F a)) + (φ v1 - φ (F p1)) + (φ v2 - φ (F p2)) := by
        rw [sum_update_sub s _ p1 (φ v1) h1, Function.update_noteq (Ne.symm hne)]

/-! ### Branch lemmas for `GoodsLedger.apply` and `Controller.submit` -/

theorem apply_of_solvent (L : GoodsLedger) (p1 : String) (δ1 : List (String × Int)) (m1 : ℚ)
    (p2 : String) (δ2 : List (String × Int)) (m2 : ℚ)
    (h1 : solvent (L.hold p1) δ1 m1) (h2 : solvent (L.hold p2) δ2 m2) :
    L.apply p1 δ1 m1 p2 δ2 m2 =
      some { agents := L.agents,
             hold := Function.update (Function.update L.hold p1 ((L.hold p1).applyDelta δ1 m1))
               p2 ((L.hold p2).applyDelta δ2 m2) } := by
  unfold GoodsLedger.apply
  rw [if_pos ⟨h1, h2⟩]

theorem apply_none_of_insolvent (L : GoodsLedger) (p1 : String) (δ1 : List (String × Int))
    (m1 : ℚ) (p2 : String) (δ2 : List (String × Int)) (m2 : ℚ)
    (h : ¬ (solvent (L.hold p1) δ1 m1 ∧ solvent (L.hold p2) δ2 m2)) :
    L.apply p1 δ1 m1 p2 δ2 m2 = none := by
  unfold GoodsLedger.apply
  rw [if_neg h]

theorem apply_some_inv {L L' : GoodsLedger} {p1 : String} {δ1 : List (String × Int)} {m1 : ℚ}
    {p2 : String} {δ2 : List (String × Int)} {m2 : ℚ}
    (happ : L.apply p1 δ1 m1 p2 δ2 m2 = some L') :
    (solvent (L.hold p1) δ1 m1 ∧ solvent (L.hold p2) δ2 m2) ∧
      L' = { agents := L.agents,
             hold := Function.update (Function.update L.hold p1 ((L.hold p1).applyDelta δ1 m1))
               p2 ((L.hold p2).applyDelta δ2 m2) } := by
  unfold GoodsLedger.apply at happ
  by_cases hs : solvent (L.hold p1) δ1 m1 ∧ solvent (L.hold p2) δ2 m2
  · rw [if_pos hs] at happ
    exact ⟨hs, (Option.some_inj.mp happ).symm⟩
  · rw [if_neg hs] at happ
    exact absurd happ (by simp)

theorem submit_redeliver (st : ControllerState) (req : TransactionRequest) (now : Nat)
    (hc : st.committedSet req.transactionId = true) :
    Controller.submit st req now = (st, .redelivered req.transactionId req.senderId) := by
  unfold Controller.submit
  simp [hc]

theorem submit_first (st : ControllerState) (req : TransactionRequest) (now : Nat)
    (hc : st.committedSet req.transactionId = false)
    (hp : st.pending req.transactionId = none) :
    Controller.submit st req now =
      ({ st with pending := Function.update st.pending req.transactionId (some (req, now)) },
       .pending) := by
  unfold Controller.submit
  simp [hc, hp]

theorem submit_stale (st : ControllerState) (first : TransactionRequest) (t : Nat)
    (req : TransactionRequest) (now : Nat)
    (hc : st.committedSet req.transactionId = false)
    (hp : st.pending req.transactionId = some (first, t))
    (hse : first.senderId = req.senderId) :
    Controller.submit st req now = (st, .staleDuplicate) := by
  unfold Controller.submit
  simp [hc, hp, hse]

theorem submit_mismatch (st : ControllerState) (first : TransactionRequest) (t : Nat)
    (req : TransactionRequest) (now : Nat)
    (hc : st.committedSet req.transactionId = false)
    (hp : st.pending req.transactionId = some (first, t))
    (hse : first.senderId ≠ req.senderId)
    (hsm : ¬ structMatch first req) :
    Controller.submit st req now =
      ({ st with pending := Function.update st.pending req.transactionId none },
       .protocolMismatch req.transactionId first.senderId req.senderId) := by
  unfold Controller.submit
  simp [hc, hp, hse, hsm]

theorem submit_commit (st : ControllerState) (first : TransactionRequest) (t : Nat)
    (req : TransactionRequest) (now : Nat) (L : GoodsLedger)
    (hc : st.committedSet req.transactionId = false)
    (hp : st.pending req.transactionId = some (first, t))
    (hse : first.senderId ≠ req.senderId)
    (hsm : structMatch first req)
    (happ : st.ledger.apply first.senderId first.goodDeltas (moneyDelta first)
      req.senderId req.goodDeltas (moneyDelta req) = some L) :
    Controller.submit st req now =
      ({ ledger := L,
         pending := Function.update st.pending req.transactionId none,
         committedSet := Function.update st.committedSet req.transactionId true },
       .confirmed req.transactionId first.senderId req.senderId) := by
  unfold Controller.submit
  simp [hc, hp, hse, hsm, happ]

theorem submit_insolvent (st : ControllerState) (first : TransactionRequest) (t : Nat)
    (req : TransactionRequest) (now : Nat)
    (hc : st.committedSet req.transactionId = false)
    (hp : st.pending req.transactionId = some (first, t))
    (hse : first.senderId ≠ req.senderId)
    (hsm : structMatch first req)
    (happ : st.ledger.apply first.senderId first.goodDeltas (moneyDelta first)
      req.senderId req.goodDeltas (moneyDelta req) = none) :
    Controller.submit st req now =
      ({ st with pending := Function.update st.pending req.transactionId none },
       if moneyOk (st.ledger.hold first.senderId) (moneyDelta first) ∧
           moneyOk (st.ledger.hold req.senderId) (moneyDelta req) then
         .insufficientGoods req.transactionId first.senderId req.senderId
       else .insufficientFunds req.transactionId first.senderId req.senderId) := by
  unfold Controller.submit
  simp [hc, hp, hse, hsm, happ]

/-! ### Scenario fixtures (spec §8) -/

/-- Scenario fixture: X holds {good1:3, money:0}. -/
def holdingsX : Holdings :=
  { goods := fun g => if g = "good1" then 3 else 0, money := 0 }

/-- Scenario fixture: Y holds {good1:0, money:m}. -/
def holdingsY (m : ℚ) : Holdings :=
  { goods := fun _ => 0, money := m }

/-- Scenario fixture: the two-agent ledger with Y's money balance `m`. -/
def scenarioLedger (m : ℚ) : GoodsLedger :=
  { agents := {"X", "Y"},
    hold := fun a =>
      if a = "X" then holdingsX
      else if a = "Y" then holdingsY m
      else { goods := fun _ => 0, money := 0 } }

/-- Scenario fixture: fresh controller state over `scenarioLedger m`. -/
def scenarioState (m : ℚ) : ControllerState :=
  { ledger := scenarioLedger m, pending := fun _ => none, committedSet := fun _ => false }

/-- Scenario fixture: X's side of the trade; X sells 2 units of good1 for 4. -/
def reqX : TransactionRequest :=
  { transactionId := "tx1", buyerId := "Y", sellerId := "X", senderId := "X",
    goodDeltas := [("good1", -2)], amount := 4 }

/-- Scenario fixture: Y's side of the trade; Y buys 2 units of good1 for 4. -/
def reqY : TransactionRequest :=
  { transactionId := "tx1", buyerId := "Y", sellerId := "X", senderId := "Y",
    goodDeltas := [("good1", 2)], amount := 4 }

/-! ### The claims -/

/-- C1: two requests with the same transactionId, negated goodDeltas,
matching amounts and a solvent outcome are committed atomically by
`Controller.submit`: both deltas are applied to the ledger in the single
second-arrival step, both agents receive a TransactionConfirmation, and the
pool entry is removed; every other agent's holdings are untouched. -/
theorem claim_C1 (st : ControllerState) (A B : TransactionRequest) (t1 t2 : Nat)
    (htx : A.transactionId = B.transactionId)
    (hpend : st.pending B.transactionId = none)
    (hcom : st.committedSet B.transactionId = false)
    (hsm : structMatch A B)
    (hse : A.senderId ≠ B.senderId)
    (hs1 : solvent (st.ledger.hold A.senderId) A.goodDeltas (moneyDelta A))
    (hs2 : solvent (st.ledger.hold B.senderId) B.goodDeltas (moneyDelta B)) :
    (Controller.submit st A t1).2 = Outcome.pending ∧
    (Controller.submit (Controller.submit st A t1).1 B t2).2 =
      Outcome.confirmed B.transactionId A.senderId B.senderId ∧
    (Controller.submit (Controller.submit st A t1).1 B t2).1.pending B.transactionId = none ∧
    (Controller.submit (Controller.submit st A t1).1 B t2).1.committedSet B.transactionId
      = true ∧
    (∀ g, ((Controller.submit (Controller.submit st A t1).1 B t2).1.ledger.hold
        A.senderId).goods g
      = (st.ledger.hold A.senderId).goods g + deltaLookup A.goodDeltas g) ∧
    ((Controller.submit (Controller.submit st A t1).1 B t2).1.ledger.hold A.senderId).money
      = (st.ledger.hold A.senderId).money + moneyDelta A ∧
    (∀ g, ((Controller.submit (Controller.submit st A t1).1 B t2).1.ledger.hold
        B.senderId).goods g
      = (st.ledger.hold B.senderId).goods g + deltaLookup B.goodDeltas g) ∧
    ((Controller.submit (Controller.submit st A t1).1 B t2).1.ledger.hold B.senderId).money
      = (st.ledger.hold B.senderId).money + moneyDelta B ∧
    (∀ a, a ≠ A.senderId → a ≠ B.senderId →
      (Controller.submit (Controller.submit st A t1).1 B t2).1.ledger.hold a
        = st.ledger.hold a) := by
  have hcomA : st.committedSet A.transactionId = false := by rw [htx]; exact hcom
  have hpendA : st.pending A.transactionId = none := by rw [htx]; exact hpend
  have h1 := submit_first st A t1 hcomA hpendA
  have hcom1 : ({ st with
      pending := Function.update st.pending A.transactionId
        (some (A, t1)) } : ControllerState).committedSet B.transactionId = false := hcom
  have hpend1 : ({ st with
      pending := Function.update st.pending A.transactionId
        (some (A, t1)) } : ControllerState).pending B.transactionId = some (A, t1) := by
    show Function.update st.pending A.transactionId (some (A, t1)) B.transactionId = _
    rw [← htx, Function.update_same]
  have happ := apply_of_solvent st.ledger A.senderId A.goodDeltas (moneyDelta A)
    B.senderId B.goodDeltas (moneyDelta B) hs1 hs2
  have h2 := submit_commit _ A t1 B t2 _ hcom1 hpend1 hse hsm happ
  rw [h1]
  simp only [h2]
  refine ⟨trivial, trivial, Function.update_same .., Function.update_same .., ?_, ?_, ?_,
    ?_, ?_⟩
  · intro g
    rw [Function.update_noteq hse, Function.update_same]
    rfl
  · rw [Function.update_noteq hse, Function.update_same]
    rfl
  · intro g
    rw [Function.update_same]
    rfl
  · rw [Function.update_same]
    rfl
  · intro a ha hb
    rw [Function.update_noteq hb, Function.update_noteq ha]

/-- C1 witness: Scenario 1 — X holds {good1:3}, Y holds {good1:0, money:10};
after both sides of tx1 are submitted the trade commits and the ledger reads
X = {good1:1, money:4}, Y = {good1:2, money:6}. -/
theorem claim_C1_witness :
    (Controller.submit (scenarioState 10) reqX 0).2 = Outcome.pending ∧
    (Controller.submit (Controller.submit (scenarioState 10) reqX 0).1 reqY 1).2 =
      Outcome.confirmed "tx1" "X" "Y" ∧
    (Controller.submit (Controller.submit (scenarioState 10) reqX 0).1 reqY 1).1.pending
      "tx1" = none ∧
    ((Controller.submit (Controller.submit (scenarioState 10) reqX 0).1
        reqY 1).1.ledger.hold "X").goods "good1" = 1 ∧
    ((Controller.submit (Controller.submit (scenarioState 10) reqX 0).1
        reqY 1).1.ledger.hold "X").money = 4 ∧
    ((Controller.submit (Controller.submit (scenarioState 10) reqX 0).1
        reqY 1).1.ledger.hold "Y").goods "good1" = 2 ∧
    ((Controller.submit (Controller.submit (scenarioState 10) reqX 0).1
        reqY 1).1.ledger.hold "Y").money = 6 := by
  have hne : ("Y" : String) ≠ "X" := by decide
  have h := claim_C1 (scenarioState 10) reqX reqY 0 1 rfl rfl rfl (by decide) (by decide)
    ⟨by decide, by unfold moneyOk; norm_num [scenarioState, scenarioLedger, holdingsX,
      holdingsY, moneyDelta, reqX, hne]⟩
    ⟨by decide, by unfold moneyOk; norm_num [scenarioState, scenarioLedger, holdingsX,
      holdingsY, moneyDelta, reqY, hne]⟩
  obtain ⟨hp, hconf, hpool, _, hgA, hmA, hgB, hmB, _⟩ := h
  refine ⟨hp, hconf, hpool, ?_, ?_, ?_, ?_⟩
  · exact (hgA "good1").trans (by decide)
  · exact hmA.trans (by norm_num [scenarioState, scenarioLedger, holdingsX, holdingsY,
      moneyDelta, reqX, hne])
  · exact (hgB "good1").trans (by decide)
  · exact hmB.trans (by norm_num [scenarioState, scenarioLedger, holdingsX, holdingsY,
      moneyDelta, reqY, hne])

/-- C2: when the second side of a trade arrives, a structural mismatch is
rejected with ProtocolMismatch and an insolvent trade with
InsufficientFunds/InsufficientGoods (funds when a money balance would go
negative, goods otherwise); in both cases the pool entry is cleared and the
ledger is left completely unchanged. -/
theorem claim_C2 (st : ControllerState) (A C : TransactionRequest) (t1 t2 : Nat)
    (htx : A.transactionId = C.transactionId)
    (hpend : st.pending C.transactionId = none)
    (hcom : st.committedSet C.transactionId = false)
    (hse : A.senderId ≠ C.senderId) :
    (¬ structMatch A C →
      (Controller.submit (Controller.submit st A t1).1 C t2).2 =
        Outcome.protocolMismatch C.transactionId A.senderId C.senderId ∧
      (Controller.submit (Controller.submit st A t1).1 C t2).1.pending C.transactionId
        = none ∧
      (Controller.submit (Controller.submit st A t1).1 C t2).1.ledger = st.ledger) ∧
    (structMatch A C →
      ¬ (solvent (st.ledger.hold A.senderId) A.goodDeltas (moneyDelta A) ∧
          solvent (st.ledger.hold C.senderId) C.goodDeltas (moneyDelta C)) →
      (Controller.submit (Controller.submit st A t1).1 C t2).2 =
        (if moneyOk (st.ledger.hold A.senderId) (moneyDelta A) ∧
            moneyOk (st.ledger.hold C.senderId) (moneyDelta C) then
          Outcome.insufficientGoods C.transactionId A.senderId C.senderId
        else Outcome.insufficientFunds C.transactionId A.senderId C.senderId) ∧
      (Controller.submit (Controller.submit st A t1).1 C t2).1.pending C.transactionId
        = none ∧
      (Controller.submit (Controller.submit st A t1).1 C t2).1.ledger = st.ledger) := by
  have hcomA : st.committedSet A.transactionId = false := by rw [htx]; exact hcom
  have hpendA : st.pending A.transactionId = none := by rw [htx]; exact hpend
  have h1 := submit_first st A t1 hcomA hpendA
  have hcom1 : ({ st with
      pending := Function.update st.pending A.transactionId
        (some (A, t1)) } : ControllerState).committedSet C.transactionId = false := hcom
  have hpend1 : ({ st with
      pending := Function.update st.pending A.transactionId
        (some (A, t1)) } : ControllerState).pending C.transactionId = some (A, t1) := by
    show Function.update st.pending A.transactionId (some (A, t1)) C.transactionId = _
    rw [← htx, Function.update_same]
  constructor
  · intro hsm
    have h2 := submit_mismatch _ A t1 C t2 hcom1 hpend1 hse hsm
    rw [h1]
    simp only [h2]
    exact ⟨trivial, Function.update_same .., trivial⟩
  · intro hsm hins
    have happ : ({ st with
        pending := Function.update st.pending A.transactionId
          (some (A, t1)) } : ControllerState).ledger.apply A.senderId A.goodDeltas
        (moneyDelta A) C.senderId C.goodDeltas (moneyDelta C) = none :=
      apply_none_of_insolvent _ _ _ _ _ _ _ hins
    have h2 := submit_insolvent _ A t1 C t2 hcom1 hpend1 hse hsm happ
    rw [h1]
    simp only [h2]
    exact ⟨trivial, Function.update_same .., trivial⟩

/-- C2 witness: Scenario 2 — identical to Scenario 1 but Y's money balance is
3 (< 4); the controller rejects both sides with InsufficientFunds and the
ledger remains X = {good1:3, money:0}, Y = {good1:0, money:3}. -/
theorem claim_C2_witness :
    (Controller.submit (Controller.submit (scenarioState 3) reqX 0).1 reqY 1).2 =
      Outcome.insufficientFunds "tx1" "X" "Y" ∧
    (Controller.submit (Controller.submit (scenarioState 3) reqX 0).1 reqY 1).1.pending
      "tx1" = none ∧
    ((Controller.submit (Controller.submit (scenarioState 3) reqX 0).1
        reqY 1).1.ledger.hold "X").goods "good1" = 3 ∧
    ((Controller.submit (Controller.submit (scenarioState 3) reqX 0).1
        reqY 1).1.ledger.hold "X").money = 0 ∧
    ((Controller.submit (Controller.submit (scenarioState 3) reqX 0).1
        reqY 1).1.ledger.hold "Y").goods "good1" = 0 ∧
    ((Controller.submit (Controller.submit (scenarioState 3) reqX 0).1
        reqY 1).1.ledger.hold "Y").money = 3 := by
  have hne : ("Y" : String) ≠ "X" := by decide
  have hmoneyY : ¬ moneyOk ((scenarioState 3).ledger.hold reqY.senderId) (moneyDelta reqY) := by
    unfold moneyOk
    norm_num [scenarioState, scenarioLedger, holdingsX, holdingsY, moneyDelta, reqY, hne]
  have h := (claim_C2 (scenarioState 3) reqX reqY 0 1 rfl rfl rfl (by decide)).2
    (by decide) (fun hsol => hmoneyY hsol.2.2)
  obtain ⟨hout, hpool, hledg⟩ := h
  have hif : ¬ (moneyOk ((scenarioState 3).ledger.hold reqX.senderId) (moneyDelta reqX) ∧
      moneyOk ((scenarioState 3).ledger.hold reqY.senderId) (moneyDelta reqY)) :=
    fun hmo => hmoneyY hmo.2
  rw [if_neg hif] at hout
  refine ⟨hout, hpool, ?_, ?_, ?_, ?_⟩
  · rw [hledg]; decide
  · rw [hledg]
    norm_num [scenarioState, scenarioLedger, holdingsX, holdingsY, hne]
  · rw [hledg]; decide
  · rw [hledg]
    norm_num [scenarioState, scenarioLedger, holdingsX, holdingsY, hne]

/-! ### Shape of a `submit` step, flag monotonicity, commit counting -/

theorem submit_shape (st : ControllerState) (req : TransactionRequest) (now : Nat) :
    ((Controller.submit st req now).1.ledger = st.ledger ∧
      (Controller.submit st req now).1.committedSet = st.committedSet ∧
      ∀ tx a b, (Controller.submit st req now).2 ≠ Outcome.confirmed tx a b) ∨
    (st.committedSet req.transactionId = false ∧
      (Controller.submit st req now).1.committedSet
        = Function.update st.committedSet req.transactionId true ∧
      ∃ first t, st.pending req.transactionId = some (first, t) ∧
        (Controller.submit st req now).2
          = Outcome.confirmed req.transactionId first.senderId req.senderId ∧
        st.ledger.apply first.senderId first.goodDeltas (moneyDelta first)
          req.senderId req.goodDeltas (moneyDelta req)
          = some ((Controller.submit st req now).1.ledger)) := by
  by_cases hc : st.committedSet req.transactionId = true
  · left
    rw [submit_redeliver st req now hc]
    exact ⟨rfl, rfl, fun tx a b h => Outcome.noConfusion h⟩
  · have hc' : st.committedSet req.transactionId = false := by
      cases hb : st.committedSet req.transactionId
      · rfl
      · exact absurd hb hc
    cases hp : st.pending req.transactionId with
    | none =>
        left
        rw [submit_first st req now hc' hp]
        exact ⟨rfl, rfl, fun tx a b h => Outcome.noConfusion h⟩
    | some pr =>
        obtain ⟨first, t⟩ := pr
        by_cases hse : first.senderId = req.senderId
        · left
          rw [submit_stale st first t req now hc' hp hse]
          exact ⟨rfl, rfl, fun tx a b h => Outcome.noConfusion h⟩
        · by_cases hsm : structMatch first req
          · cases happ : st.ledger.apply first.senderId first.goodDeltas (moneyDelta first)
                req.senderId req.goodDeltas (moneyDelta req) with
            | some L =>
                right
                rw [submit_commit st first t req now L hc' hp hse hsm happ]
                exact ⟨hc', rfl, first, t, rfl, rfl, happ⟩
            | none =>
                left
                rw [submit_insolvent st first t req now hc' hp hse hsm happ]
                refine ⟨rfl, rfl, fun tx a b h => ?_⟩
                by_cases hmo : moneyOk (st.ledger.hold first.senderId) (moneyDelta first) ∧
                    moneyOk (st.ledger.hold req.senderId) (moneyDelta req)
                · rw [show ((({ st with
                      pending := Function.update st.pending req.transactionId none }
                        : ControllerState),
                      if moneyOk (st.ledger.hold first.senderId) (moneyDelta first) ∧
                          moneyOk (st.ledger.hold req.senderId) (moneyDelta req) then
                        Outcome.insufficientGoods req.transactionId first.senderId req.senderId
                      else Outcome.insufficientFunds req.transactionId first.senderId
                        req.senderId).2)
                    = Outcome.insufficientGoods req.transactionId first.senderId req.senderId
                    from if_pos hmo] at h
                  exact Outcome.noConfusion h
                · rw [show ((({ st with
                      pending := Function.update st.pending req.transactionId none }
                        : ControllerState),
                      if moneyOk (st.ledger.hold first.senderId) (moneyDelta first) ∧
                          moneyOk (st.ledger.hold req.senderId) (moneyDelta req) then
                        Outcome.insufficientGoods req.transactionId first.senderId req.senderId
                      else Outcome.insufficientFunds req.transactionId first.senderId
                        req.senderId).2)
                    = Outcome.insufficientFunds req.transactionId first.senderId req.senderId
                    from if_neg hmo] at h
                  exact Outcome.noConfusion h
          · left
            rw [submit_mismatch st first t req now hc' hp hse hsm]
            exact ⟨rfl, rfl, fun tx a b h => Outcome.noConfusion h⟩

theorem submit_committedSet_mono {st : ControllerState} {tx : String}
    (req : TransactionRequest) (now : Nat) (h : st.committedSet tx = true) :
    (Controller.submit st req now).1.committedSet tx = true := by
  rcases submit_shape st req now with ⟨_, hcs, _⟩ | ⟨_, hcs, _⟩ <;> rw [hcs]
  · exact h
  · by_cases htx : tx = req.transactionId
    · subst htx
      rw [Function.update_same]
    · rw [Function.update_noteq htx]
      exact h

theorem step_committedSet_mono {st : ControllerState} {tx : String} (op : Op)
    (h : st.committedSet tx = true) : (st.step op).committedSet tx = true := by
  cases op with
  | submit req now => exact submit_committedSet_mono req now h
  | purge now limit => exact h

theorem submit_confirmed_inv {st : ControllerState} {req : TransactionRequest} {now : Nat}
    {tx a b : String} (h : (Controller.submit st req now).2 = Outcome.confirmed tx a b) :
    tx = req.transactionId ∧ st.committedSet req.transactionId = false ∧
      (Controller.submit st req now).1.committedSet req.transactionId = true := by
  rcases submit_shape st req now with ⟨_, _, hno⟩ | ⟨hc, hcs, first, t, _, hout, _⟩
  · exact absurd h (hno tx a b)
  · rw [hout] at h
    obtain ⟨htx, -, -⟩ := Outcome.confirmed.inj h.symm
    exact ⟨htx, hc, by rw [hcs, Function.update_same]⟩

theorem commitsTx_eq_zero {st : ControllerState} {tx : String} (op : Op)
    (h : st.committedSet tx = true) : commitsTx st op tx = 0 := by
  cases op with
  | purge now limit => rfl
  | submit req now =>
      simp only [commitsTx]
      cases ho : (Controller.submit st req now).2 with
      | confirmed tx' a b =>
          have hinv := submit_confirmed_inv ho
          have htx : tx' ≠ tx := by
            intro he
            have hx : st.committedSet req.transactionId = true := by
              rw [← hinv.1, he]
              exact h
            rw [hinv.2.1] at hx
            exact Bool.noConfusion hx
          simp [htx]
      | pending => rfl
      | protocolMismatch tx' a b => rfl
      | insufficientFunds tx' a b => rfl
      | insufficientGoods tx' a b => rfl
      | staleDuplicate => rfl
      | redelivered tx' a => rfl

theorem commitCount_eq_zero (ops : List Op) (st : ControllerState) (tx : String)
    (h : st.committedSet tx = true) : commitCount st ops tx = 0 := by
  induction ops generalizing st with
  | nil => rfl
  | cons op rest ih =>
      show commitsTx st op tx + commitCount (st.step op) rest tx = 0
      rw [commitsTx_eq_zero op h, ih (st.step op) (step_committedSet_mono op h)]

theorem commitCount_le_one (ops : List Op) (st : ControllerState) (tx : String) :
    commitCount st ops tx ≤ 1 := by
  induction ops generalizing st with
  | nil => exact Nat.zero_le 1
  | cons op rest ih =>
      show commitsTx st op tx + commitCount (st.step op) rest tx ≤ 1
      cases op with
      | purge now limit =>
          rw [show commitsTx st (Op.purge now limit) tx = 0 from rfl, Nat.zero_add]
          exact ih _
      | submit req now =>
          simp only [commitsTx]
          cases ho : (Controller.submit st req now).2 with
          | confirmed tx' a b =>
              by_cases htx : tx' = tx
              · have hinv := submit_confirmed_inv ho
                have hflag : ((st.step (Op.submit req now)).committedSet tx) = true := by
                  show (Controller.submit st req now).1.committedSet tx = true
                  rw [← htx, hinv.1]
                  exact hinv.2.2
                rw [commitCount_eq_zero rest _ tx hflag]
                simp [htx]
              · show (if tx' = tx then 1 else 0) + _ ≤ 1
                rw [if_neg htx, Nat.zero_add]
                exact ih _
          | pending =>
              show 0 + _ ≤ 1
              rw [Nat.zero_add]
              exact ih _
          | protocolMismatch tx' a b =>
              show 0 + _ ≤ 1
              rw [Nat.zero_add]
              exact ih _
          | insufficientFunds tx' a b =>
              show 0 + _ ≤ 1
              rw [Nat.zero_add]
              exact ih _
          | insufficientGoods tx' a b =>
              show 0 + _ ≤ 1
              rw [Nat.zero_add]
              exact ih _
          | staleDuplicate =>
              show 0 + _ ≤ 1
              rw [Nat.zero_add]
              exact ih _
          | redelivered tx' a =>
              show 0 + _ ≤ 1
              rw [Nat.zero_add]
              exact ih _

/-- C3: exactly-once commit — across any sequence of controller operations a
transactionId is committed at most once; a resubmission after commit is
answered by redelivering the prior confirmation with the state (hence the
ledger) untouched; and a duplicate from the same sender arriving before
commit is discarded as a stale duplicate, also without touching the state. -/
theorem claim_C3 :
    (∀ st ops tx, commitCount st ops tx ≤ 1) ∧
    (∀ st (req : TransactionRequest) now, st.committedSet req.transactionId = true →
      Controller.submit st req now
        = (st, Outcome.redelivered req.transactionId req.senderId)) ∧
    (∀ st (first : TransactionRequest) t (req : TransactionRequest) now,
      st.committedSet req.transactionId = false →
      st.pending req.transactionId = some (first, t) →
      first.senderId = req.senderId →
      Controller.submit st req now = (st, Outcome.staleDuplicate)) :=
  ⟨fun st ops tx => commitCount_le_one ops st tx,
   fun st req now hc => submit_redeliver st req now hc,
   fun st first t req now hc hp hse => submit_stale st first t req now hc hp hse⟩

/-- Fixture: a controller state in which tx1 has already been committed. -/
def committedState : ControllerState :=
  { ledger := scenarioLedger 10, pending := fun _ => none,
    committedSet := fun tx => tx == "tx1" }

/-- Fixture: a controller state in which X's side of tx1 is already pending. -/
def pendingState : ControllerState :=
  { ledger := scenarioLedger 10,
    pending := Function.update (fun _ => none) "tx1" (some (reqX, 0)),
    committedSet := fun _ => false }

/-- C3 witness: at most one commit of tx1 along the Scenario 1 run;
resubmitting to an already-committed tx1 redelivers the confirmation without
state change; a duplicate of X's side before commit is discarded as stale. -/
theorem claim_C3_witness :
    commitCount (scenarioState 10) [Op.submit reqX 0, Op.submit reqY 1] "tx1" ≤ 1 ∧
    Controller.submit committedState reqY 5
      = (committedState, Outcome.redelivered "tx1" "Y") ∧
    Controller.submit pendingState reqX 5 = (pendingState, Outcome.staleDuplicate) :=
  ⟨claim_C3.1 (scenarioState 10) [Op.submit reqX 0, Op.submit reqY 1] "tx1",
   claim_C3.2.1 committedState reqY 5 (by decide),
   claim_C3.2.2 pendingState reqX 0 reqX 5 (by decide) (by decide) rfl⟩

/-- C4: a single successful `GoodsLedger.apply` of a matched pair (negated
deltas, cancelling money deltas) conserves the total quantity of every good
over all agents and the total money over all agents. -/
theorem claim_C4 (L L' : GoodsLedger) (p1 p2 : String) (δ1 δ2 : List (String × Int))
    (m1 m2 : ℚ) (h1 : p1 ∈ L.agents) (h2 : p2 ∈ L.agents) (hne : p1 ≠ p2)
    (hneg : NegDeltas δ1 δ2) (hm : m1 + m2 = 0)
    (happ : L.apply p1 δ1 m1 p2 δ2 m2 = some L') :
    (∀ g, (∑ a ∈ L.agents, (L'.hold a).goods g) = ∑ a ∈ L.agents, (L.hold a).goods g) ∧
    (∑ a ∈ L.agents, (L'.hold a).money) = ∑ a ∈ L.agents, (L.hold a).money := by
  obtain ⟨-, rfl⟩ := apply_some_inv happ
  constructor
  · intro g
    dsimp only
    rw [sum_comp_update_two L.agents L.hold (fun h => h.goods g) p1 p2
      ((L.hold p1).applyDelta δ1 m1) ((L.hold p2).applyDelta δ2 m2) h1 h2 hne]
    simp only [Holdings.applyDelta]
    rw [negDeltas_lookup hneg g]
    ring
  · dsimp only
    rw [sum_comp_update_two L.agents L.hold Holdings.money p1 p2
      ((L.hold p1).applyDelta δ1 m1) ((L.hold p2).applyDelta δ2 m2) h1 h2 hne]
    simp only [Holdings.applyDelta]
    linarith

/-- Fixture: the ledger after the Scenario 1 commit. -/
def commitLedger : GoodsLedger :=
  { agents := {"X", "Y"},
    hold := Function.update (Function.update (scenarioLedger 10).hold "X"
        (((scenarioLedger 10).hold "X").applyDelta reqX.goodDeltas (moneyDelta reqX))) "Y"
      (((scenarioLedger 10).hold "Y").applyDelta reqY.goodDeltas (moneyDelta reqY)) }

/-- C4 witness: the Scenario 1 commit conserves the total quantity of good1
and the total money across X and Y. -/
theorem claim_C4_witness :
    (∑ a ∈ (scenarioLedger 10).agents, ((commitLedger).hold a).goods "good1")
      = (∑ a ∈ (scenarioLedger 10).agents, ((scenarioLedger 10).hold a).goods "good1") ∧
    (∑ a ∈ (scenarioLedger 10).agents, ((commitLedger).hold a).money)
      = ∑ a ∈ (scenarioLedger 10).agents, ((scenarioLedger 10).hold a).money := by
  have hne : ("Y" : String) ≠ "X" := by decide
  have hm : moneyDelta reqX + moneyDelta reqY = 0 := by
    norm_num [moneyDelta, reqX, reqY, hne]
  have hs1 : solvent ((scenarioLedger 10).hold "X") reqX.goodDeltas (moneyDelta reqX) :=
    ⟨by decide, by unfold moneyOk; norm_num [scenarioLedger, holdingsX, holdingsY,
      moneyDelta, reqX, hne]⟩
  have hs2 : solvent ((scenarioLedger 10).hold "Y") reqY.goodDeltas (moneyDelta reqY) :=
    ⟨by decide, by unfold moneyOk; norm_num [scenarioLedger, holdingsX, holdingsY,
      moneyDelta, reqY, hne]⟩
  have happ : (scenarioLedger 10).apply "X" reqX.goodDeltas (moneyDelta reqX)
      "Y" reqY.goodDeltas (moneyDelta reqY) = some commitLedger :=
    apply_of_solvent (scenarioLedger 10) "X" reqX.goodDeltas (moneyDelta reqX)
      "Y" reqY.goodDeltas (moneyDelta reqY) hs1 hs2
  have h := claim_C4 (scenarioLedger 10) commitLedger "X" "Y" reqX.goodDeltas
    reqY.goodDeltas (moneyDelta reqX) (moneyDelta reqY) (by decide) (by decide)
    (by decide) (by decide) hm happ
  exact ⟨h.1 "good1", h.2⟩

/-! ### Non-negativity preservation -/

theorem applyDelta_nonneg (h : Holdings) (δ : List (String × Int)) (m : ℚ)
    (hg : ∀ g, 0 ≤ h.goods g) (_hm : 0 ≤ h.money) (hs : solvent h δ m) :
    (∀ g, 0 ≤ (h.applyDelta δ m).goods g) ∧ 0 ≤ (h.applyDelta δ m).money := by
  constructor
  · intro g
    by_cases hgδ : g ∈ δ.map Prod.fst
    · exact hs.1 g hgδ
    · show 0 ≤ h.goods g + deltaLookup δ g
      rw [deltaLookup_eq_zero hgδ, add_zero]
      exact hg g
  · exact hs.2

theorem apply_nonneg {L L' : GoodsLedger} {p1 : String} {δ1 : List (String × Int)} {m1 : ℚ}
    {p2 : String} {δ2 : List (String × Int)} {m2 : ℚ} (hnn : L.NonNeg)
    (happ : L.apply p1 δ1 m1 p2 δ2 m2 = some L') : L'.NonNeg := by
  obtain ⟨⟨hs1, hs2⟩, rfl⟩ := apply_some_inv happ
  intro a
  show (∀ g, 0 ≤ (Function.update (Function.update L.hold p1 ((L.hold p1).applyDelta δ1 m1))
      p2 ((L.hold p2).applyDelta δ2 m2) a).goods g) ∧
    0 ≤ (Function.update (Function.update L.hold p1 ((L.hold p1).applyDelta δ1 m1))
      p2 ((L.hold p2).applyDelta δ2 m2) a).money
  by_cases ha2 : a = p2
  · subst ha2
    rw [Function.update_same]
    exact applyDelta_nonneg (L.hold a) δ2 m2 (hnn a).1 (hnn a).2 hs2
  · rw [Function.update_noteq ha2]
    by_cases ha1 : a = p1
    · subst ha1
      rw [Function.update_same]
      exact applyDelta_nonneg (L.hold a) δ1 m1 (hnn a).1 (hnn a).2 hs1
    · rw [Function.update_noteq ha1]
      exact hnn a

theorem submit_nonneg (st : ControllerState) (req : TransactionRequest) (now : Nat)
    (h : st.ledger.NonNeg) : (Controller.submit st req now).1.ledger.NonNeg := by
  rcases submit_shape st req now with ⟨hld, -, -⟩ | ⟨-, -, first, t, -, -, happ⟩
  · rw [hld]
    exact h
  · exact apply_nonneg h happ

theorem step_nonneg (st : ControllerState) (op : Op) (h : st.ledger.NonNeg) :
    (st.step op).ledger.NonNeg := by
  cases op with
  | submit req now => exact submit_nonneg st req now h
  | purge now limit => exact h

/-- C5: non-negativity is an invariant — from any controller state whose
ledger has all good quantities and money balances ≥ 0, after any sequence of
submit/purge operations every agent's every good quantity and money balance
is still ≥ 0. -/
theorem claim_C5 (st : ControllerState) (ops : List Op) (h : st.ledger.NonNeg) :
    (st.run ops).ledger.NonNeg := by
  induction ops generalizing st with
  | nil => exact h
  | cons op rest ih => exact ih (st.step op) (step_nonneg st op h)

/-- C5 witness: the Scenario 1 initial ledger is non-negative and stays so
across the full Scenario 1 run (both submits). -/
theorem claim_C5_witness :
    ((scenarioState 10).run [Op.submit reqX 0, Op.submit reqY 1]).ledger.NonNeg := by
  refine claim_C5 (scenarioState 10) [Op.submit reqX 0, Op.submit reqY 1] ?_
  intro a
  show (∀ g, 0 ≤ ((scenarioLedger 10).hold a).goods g) ∧
    0 ≤ ((scenarioLedger 10).hold a).money
  unfold scenarioLedger holdingsX holdingsY
  by_cases hx : a = "X"
  · subst hx
    refine ⟨fun g => ?_, by norm_num⟩
    simp only [if_pos rfl]
    by_cases hg : g = "good1" <;> simp [hg]
  · by_cases hy : a = "Y"
    · subst hy
      simp only [if_neg (by decide : ("Y" : String) ≠ "X"), if_pos rfl]
      exact ⟨fun g => le_refl 0, by norm_num⟩
    · simp only [if_neg hx, if_neg hy]
      exact ⟨fun g => le_refl 0, le_refl 0⟩

/-! ### Mirror lemmas -/

theorem mirror_senderId_ne {A : TransactionRequest} (hbs : A.buyerId ≠ A.sellerId) :
    (mirror A).senderId ≠ A.senderId := by
  show (if A.senderId = A.sellerId then A.buyerId else A.sellerId) ≠ A.senderId
  by_cases h : A.senderId = A.sellerId
  · rw [if_pos h, h]
    exact hbs
  · rw [if_neg h]
    exact fun he => h he.symm

theorem structMatch_mirror_right {A : TransactionRequest} (hrole : A.senderId = A.buyerId ∨
    A.senderId = A.sellerId) (hbs : A.buyerId ≠ A.sellerId) :
    structMatch A (mirror A) := by
  refine ⟨negDeltas_mapNeg_right A.goodDeltas, rfl, rfl, rfl, ?_⟩
  rcases hrole with hb | hs
  · left
    refine ⟨hb, ?_⟩
    show (if A.senderId = A.sellerId then A.buyerId else A.sellerId) = A.sellerId
    rw [if_neg (fun h => hbs (hb.symm.trans h))]
  · right
    refine ⟨hs, ?_⟩
    show (if A.senderId = A.sellerId then A.buyerId else A.sellerId) = A.buyerId
    rw [if_pos hs]

theorem structMatch_mirror_left {A : TransactionRequest} (hrole : A.senderId = A.buyerId ∨
    A.senderId = A.sellerId) (hbs : A.buyerId ≠ A.sellerId) :
    structMatch (mirror A) A := by
  refine ⟨negDeltas_mapNeg_left A.goodDeltas, rfl, rfl, rfl, ?_⟩
  rcases hrole with hb | hs
  · right
    refine ⟨?_, hb⟩
    show (if A.senderId = A.sellerId then A.buyerId else A.sellerId) = A.sellerId
    rw [if_neg (fun h => hbs (hb.symm.trans h))]
  · left
    refine ⟨?_, hs⟩
    show (if A.senderId = A.sellerId then A.buyerId else A.sellerId) = A.buyerId
    rw [if_pos hs]

theorem moneyDelta_mirror {A : TransactionRequest} (hbs : A.buyerId ≠ A.sellerId) :
    moneyDelta (mirror A) = - moneyDelta A := by
  unfold moneyDelta
  by_cases h : A.senderId = A.sellerId
  · rw [show (mirror A).senderId = A.buyerId from by
      show (if A.senderId = A.sellerId then A.buyerId else A.sellerId) = _
      rw [if_pos h]]
    show (if A.buyerId = A.sellerId then A.amount else - A.amount) = - _
    rw [if_neg hbs, if_pos h]
  · rw [show (mirror A).senderId = A.sellerId from by
      show (if A.senderId = A.sellerId then A.buyerId else A.sellerId) = _
      rw [if_neg h]]
    show (if A.sellerId = A.sellerId then A.amount else - A.amount) = - _
    rw [if_pos rfl, if_neg h, neg_neg]

/-- C6: `Controller.submit` is symmetric in the arrival order of the two
sides of a trade: submitting A then mirror(A) commits with the same resulting
ledger as submitting mirror(A) then A; and submitting A then any C on the
same transactionId whose goodDeltas are not the exact negation of A's is
rejected with ProtocolMismatch and no ledger change. -/
theorem claim_C6 (st : ControllerState) (A : TransactionRequest) (t1 t2 : Nat)
    (hpend : st.pending A.transactionId = none)
    (hcom : st.committedSet A.transactionId = false)
    (hrole : A.senderId = A.buyerId ∨ A.senderId = A.sellerId)
    (hbs : A.buyerId ≠ A.sellerId)
    (hs1 : solvent (st.ledger.hold A.senderId) A.goodDeltas (moneyDelta A))
    (hs2 : solvent (st.ledger.hold (mirror A).senderId) (mirror A).goodDeltas
      (moneyDelta (mirror A))) :
    (Controller.submit (Controller.submit st A t1).1 (mirror A) t2).2
      = Outcome.confirmed A.transactionId A.senderId (mirror A).senderId ∧
    (Controller.submit (Controller.submit st (mirror A) t1).1 A t2).2
      = Outcome.confirmed A.transactionId (mirror A).senderId A.senderId ∧
    (Controller.submit (Controller.submit st A t1).1 (mirror A) t2).1.ledger
      = (Controller.submit (Controller.submit st (mirror A) t1).1 A t2).1.ledger ∧
    (∀ C : TransactionRequest, C.transactionId = A.transactionId →
      C.senderId ≠ A.senderId → ¬ NegDeltas A.goodDeltas C.goodDeltas →
      (Controller.submit (Controller.submit st A t1).1 C t2).2
        = Outcome.protocolMismatch A.transactionId A.senderId C.senderId ∧
      (Controller.submit (Controller.submit st A t1).1 C t2).1.ledger = st.ledger) := by
  have hsne : (mirror A).senderId ≠ A.senderId := mirror_senderId_ne hbs
  have h1 := submit_first st A t1 hcom hpend
  have h1m := submit_first st (mirror A) t1 hcom hpend
  have happ1 := apply_of_solvent st.ledger A.senderId A.goodDeltas (moneyDelta A)
    (mirror A).senderId (mirror A).goodDeltas (moneyDelta (mirror A)) hs1 hs2
  have happ2 := apply_of_solvent st.ledger (mirror A).senderId (mirror A).goodDeltas
    (moneyDelta (mirror A)) A.senderId A.goodDeltas (moneyDelta A) hs2 hs1
  have hpend1 : ({ st with
      pending := Function.update st.pending A.transactionId (some (A, t1)) }
        : ControllerState).pending (mirror A).transactionId
      = some (A, t1) := Function.update_same ..
  have hpend1m : ({ st with
      pending := Function.update st.pending (mirror A).transactionId
        (some (mirror A, t1)) } : ControllerState).pending A.transactionId
      = some (mirror A, t1) := Function.update_same ..
  have hcom1 : ({ st with
      pending := Function.update st.pending A.transactionId (some (A, t1)) }
        : ControllerState).committedSet (mirror A).transactionId = false := hcom
  have hcom1m : ({ st with
      pending := Function.update st.pending (mirror A).transactionId
        (some (mirror A, t1)) } : ControllerState).committedSet A.transactionId
      = false := hcom
  have h2 := submit_commit _ A t1 (mirror A) t2 _ hcom1 hpend1
    (fun h => hsne h.symm) (structMatch_mirror_right hrole hbs) happ1
  have h2m := submit_commit _ (mirror A) t1 A t2 _ hcom1m hpend1m hsne
    (structMatch_mirror_left hrole hbs) happ2
  refine ⟨?_, ?_, ?_, ?_⟩
  · rw [h1]
    simp only [h2]
    rfl
  · rw [h1m]
    simp only [h2m]
  · rw [h1, h1m]
    simp only [h2, h2m]
    exact congrArg (fun h => ({ agents := st.ledger.agents, hold := h } : GoodsLedger))
      (Function.update_comm (fun h => hsne h.symm)
        ((st.ledger.hold A.senderId).applyDelta A.goodDeltas (moneyDelta A))
        ((st.ledger.hold (mirror A).senderId).applyDelta (mirror A).goodDeltas
          (moneyDelta (mirror A)))
        st.ledger.hold)
  · intro C htxC hseC hnegC
    have hpend1C : ({ st with
        pending := Function.update st.pending A.transactionId (some (A, t1)) }
          : ControllerState).pending C.transactionId = some (A, t1) := by
      rw [htxC]
      exact Function.update_same ..
    have hcomC : ({ st with
        pending := Function.update st.pending A.transactionId (some (A, t1)) }
          : ControllerState).committedSet C.transactionId = false := by
      rw [htxC]
      exact hcom
    have h2C := submit_mismatch _ A t1 C t2 hcomC hpend1C (fun h => hseC h.symm)
      (fun hsm => hnegC hsm.1)
    rw [h1]
    simp only [h2C]
    rw [htxC]
    exact ⟨rfl, trivial⟩

/-- Fixture: a second-side request for tx1 whose goodDeltas are not the exact
negation of X's side. -/
def reqBad : TransactionRequest :=
  { transactionId := "tx1", buyerId := "Y", sellerId := "X", senderId := "Y",
    goodDeltas := [("good1", 5)], amount := 4 }

/-- C6 witness: in Scenario 1 both arrival orders of X's side and its mirror
commit with the same resulting ledger, and a non-negated counterpart is
rejected with ProtocolMismatch leaving the ledger unchanged. -/
theorem claim_C6_witness :
    (Controller.submit (Controller.submit (scenarioState 10) reqX 0).1 (mirror reqX) 1).2
      = Outcome.confirmed "tx1" "X" (mirror reqX).senderId ∧
    (Controller.submit (Controller.submit (scenarioState 10) (mirror reqX) 0).1 reqX 1).2
      = Outcome.confirmed "tx1" (mirror reqX).senderId "X" ∧
    (Controller.submit (Controller.submit (scenarioState 10) reqX 0).1 (mirror reqX) 1).1.ledger
      = (Controller.submit (Controller.submit (scenarioState 10) (mirror reqX) 0).1
          reqX 1).1.ledger ∧
    (Controller.submit (Controller.submit (scenarioState 10) reqX 0).1 reqBad 1).2
      = Outcome.protocolMismatch "tx1" "X" "Y" ∧
    (Controller.submit (Controller.submit (scenarioState 10) reqX 0).1 reqBad 1).1.ledger
      = (scenarioState 10).ledger := by
  have hne : ("Y" : String) ≠ "X" := by decide
  have h := claim_C6 (scenarioState 10) reqX 0 1 rfl rfl (by right; decide) (by decide)
    ⟨by decide, by unfold moneyOk; norm_num [scenarioState, scenarioLedger, holdingsX,
      holdingsY, moneyDelta, reqX, hne]⟩
    ⟨by decide, by unfold moneyOk; norm_num [scenarioState, scenarioLedger, holdingsX,
      holdingsY, moneyDelta, mirror, reqX, hne]⟩
  obtain ⟨ha, hb, hl, hC⟩ := h
  obtain ⟨hbad1, hbad2⟩ := hC reqBad rfl (by decide) (by decide)
  exact ⟨ha, hb, hl, hbad1, hbad2⟩

/-- C7: `transactionId` derivation is a deterministic pure function of the
canonically ordered agent-id pair and the agreed terms: both sides compute
the identical id whichever agent computes it and whichever role it played,
and the id depends only on the sorted pair. -/
theorem claim_C7 : ∀ a b terms : String,
    deriveTxId a b terms = deriveTxId b a terms ∧
    deriveTxId a b terms = deriveTxId (min a b) (max a b) terms := by
  intro a b t
  constructor
  · unfold deriveTxId
    rw [min_comm, max_comm]
  · unfold deriveTxId
    rw [min_eq_left (min_le_max (a := a) (b := b)),
      max_eq_right (min_le_max (a := a) (b := b))]

/-- C9: a pool entry older than the timeout limit (all entries hold a single
side) is purged, its submitter is notified of the failure, and a request
arriving later with the now-stale transactionId only opens a fresh pending
entry — it never causes a commit and leaves the ledger unchanged. -/
theorem claim_C9 (st : ControllerState) (r : TransactionRequest) (t0 now limit t2 : Nat)
    (req : TransactionRequest) (tx : String)
    (hpend : st.pending tx = some (r, t0))
    (hstale : t0 + limit < now)
    (hcom : st.committedSet tx = false)
    (hreq : req.transactionId = tx) :
    (Controller.purge st now limit).1.pending tx = none ∧
    (Controller.purge st now limit).2 tx = some r.senderId ∧
    (Controller.submit (Controller.purge st now limit).1 req t2).2 = Outcome.pending ∧
    (Controller.submit (Controller.purge st now limit).1 req t2).1.ledger = st.ledger := by
  have hp : (Controller.purge st now limit).1.pending tx = none := by
    show (match st.pending tx with
      | some (r, t) => if t + limit < now then none else some (r, t)
      | none => none) = none
    rw [hpend]
    show (if t0 + limit < now then none else some (r, t0)) = none
    rw [if_pos hstale]
  have hn : (Controller.purge st now limit).2 tx = some r.senderId := by
    show (match st.pending tx with
      | some (r, t) => if t + limit < now then some r.senderId else none
      | none => none) = some r.senderId
    rw [hpend]
    show (if t0 + limit < now then some r.senderId else none) = some r.senderId
    rw [if_pos hstale]
  have hc2 : (Controller.purge st now limit).1.committedSet req.transactionId = false := by
    show st.committedSet req.transactionId = false
    rw [hreq]
    exact hcom
  have hp2 : (Controller.purge st now limit).1.pending req.transactionId = none := by
    rw [hreq]
    exact hp
  have h2 := submit_first (Controller.purge st now limit).1 req t2 hc2 hp2
  refine ⟨hp, hn, ?_, ?_⟩
  · rw [h2]
  · rw [h2]
    rfl

/-- C9 witness: with limit 5, X's side of tx1 submitted at time 0 is stale at
time 100: the purge removes it and notifies X; Y's side arriving afterwards
merely becomes pending again, with the ledger unchanged. -/
theorem claim_C9_witness :
    (Controller.purge pendingState 100 5).1.pending "tx1" = none ∧
    (Controller.purge pendingState 100 5).2 "tx1" = some "X" ∧
    (Controller.submit (Controller.purge pendingState 100 5).1 reqY 101).2
      = Outcome.pending ∧
    (Controller.submit (Controller.purge pendingState 100 5).1 reqY 101).1.ledger
      = pendingState.ledger :=
  claim_C9 pendingState reqX 0 100 5 101 reqY "tx1" (by decide) (by decide) rfl rfl

/-- C10: the GUI launcher's sandbox status poller issues its GET request to
"/api/sandboxes/" ++ id only at ticks where `currentSandboxID` is non-null:
every request in a poll trace names some non-null id that the variable held,
and a trace of all-null ticks (no sandbox started yet) issues no request. -/
theorem claim_C10 :
    (∀ (states : List (Option String)) (r : SandboxRequest),
      r ∈ pollStatusRequests states →
        ∃ sid, (some sid) ∈ states ∧
          r = { method := "GET", url := "/api/sandboxes/" ++ sid }) ∧
    (∀ n, pollStatusRequests (List.replicate n (none : Option String)) = []) := by
  constructor
  · intro states r hr
    induction states with
    | nil => cases hr
    | cons stt rest ih =>
        rw [show pollStatusRequests (stt :: rest)
            = getSandboxStatus stt ++ pollStatusRequests rest from rfl] at hr
        rcases List.mem_append.mp hr with h | h
        · cases stt with
          | none => cases h
          | some sid =>
              have hre : r = { method := "GET", url := "/api/sandboxes/" ++ sid } := by
                cases h with
                | head => rfl
                | tail _ h2 => cases h2
              exact ⟨sid, List.mem_cons_self .., hre⟩
        · obtain ⟨sid, hmem, hre⟩ := ih h
          exact ⟨sid, List.mem_cons_of_mem _ hmem, hre⟩
  · intro n
    induction n with
    | zero => rfl
    | succ k ih =>
        rw [List.replicate_succ]
        show getSandboxStatus none ++ pollStatusRequests (List.replicate k none) = []
        rw [ih]
        rfl

/-- C10 witness: in the trace null, "box1", null the only status request is
the GET for box1, and three all-null ticks issue no request at all. -/
theorem claim_C10_witness :
    (∃ sid, (some sid) ∈ ([none, some "box1", none] : List (Option String)) ∧
      ({ method := "GET", url := "/api/sandboxes/box1" } : SandboxRequest)
        = { method := "GET", url := "/api/sandboxes/" ++ sid }) ∧
    pollStatusRequests (List.replicate 3 (none : Option String)) = [] :=
  ⟨claim_C10.1 [none, some "box1", none]
      { method := "GET", url := "/api/sandboxes/box1" } (by decide),
   claim_C10.2 3⟩

/-! ### Session state machine lemmas -/

/-- Progress rank of a session state: transitions never decrease it. -/
def SessState.rank : SessState → Nat
  | .INIT => 0
  | .CFP_SENT => 1
  | .PROPOSED => 2
  | .ACCEPTED => 3
  | .MATCHED => 4
  | .COMMITTED => 5
  | .ABORTED => 6

theorem step_cases (s : NegotiationSession) (e : SessEvent) :
    ∃ st' : SessState, ∃ tx' : Option String,
      (s.step e).1 = { s with state := st', txId := tx' } ∧
      (tx' = s.txId ∨ tx' = some (deriveTxId s.ownId s.peerId s.terms)) := by
  cases e with
  | timeout => exact ⟨.ABORTED, s.txId, rfl, Or.inl rfl⟩
  | startCFP =>
      by_cases h : s.state = .INIT
      · exact ⟨.CFP_SENT, s.txId, by simp only [NegotiationSession.step]; rw [if_pos h],
          Or.inl rfl⟩
      · exact ⟨s.state, s.txId, by simp only [NegotiationSession.step]; rw [if_neg h],
          Or.inl rfl⟩
  | recvCFP =>
      by_cases h : s.state = .INIT
      · exact ⟨.PROPOSED, s.txId, by simp only [NegotiationSession.step]; rw [if_pos h],
          Or.inl rfl⟩
      · exact ⟨s.state, s.txId, by simp only [NegotiationSession.step]; rw [if_neg h],
          Or.inl rfl⟩
  | recvProposal ok =>
      by_cases h : s.state = .CFP_SENT
      · exact ⟨if ok then .PROPOSED else .ABORTED, s.txId,
          by simp only [NegotiationSession.step]; rw [if_pos h], Or.inl rfl⟩
      · exact ⟨s.state, s.txId, by simp only [NegotiationSession.step]; rw [if_neg h],
          Or.inl rfl⟩
  | decide profitable =>
      by_cases h : s.state = .PROPOSED
      · exact ⟨if profitable then .ACCEPTED else .ABORTED, s.txId,
          by simp only [NegotiationSession.step]; rw [if_pos h], Or.inl rfl⟩
      · exact ⟨s.state, s.txId, by simp only [NegotiationSession.step]; rw [if_neg h],
          Or.inl rfl⟩
  | recvMatchedAccept =>
      by_cases h : s.state = .ACCEPTED
      · exact ⟨.MATCHED, some (deriveTxId s.ownId s.peerId s.terms),
          by simp only [NegotiationSession.step]; rw [if_pos h], Or.inr rfl⟩
      · exact ⟨s.state, s.txId, by simp only [NegotiationSession.step]; rw [if_neg h],
          Or.inl rfl⟩
  | retry =>
      by_cases h : s.state = .MATCHED
      · exact ⟨s.state, s.txId, by simp only [NegotiationSession.step]; rw [if_pos h],
          Or.inl rfl⟩
      · exact ⟨s.state, s.txId, by simp only [NegotiationSession.step]; rw [if_neg h],
          Or.inl rfl⟩
  | recvConfirmation tx =>
      by_cases h : s.state = .MATCHED ∧ s.txId = some tx
      · exact ⟨.COMMITTED, s.txId, by simp only [NegotiationSession.step]; rw [if_pos h],
          Or.inl rfl⟩
      · exact ⟨s.state, s.txId, by simp only [NegotiationSession.step]; rw [if_neg h],
          Or.inl rfl⟩

theorem step_ownId (s : NegotiationSession) (e : SessEvent) :
    (s.step e).1.ownId = s.ownId := by
  obtain ⟨st', tx', heq, -⟩ := step_cases s e
  rw [heq]

theorem step_peerId (s : NegotiationSession) (e : SessEvent) :
    (s.step e).1.peerId = s.peerId := by
  obtain ⟨st', tx', heq, -⟩ := step_cases s e
  rw [heq]

theorem step_terms (s : NegotiationSession) (e : SessEvent) :
    (s.step e).1.terms = s.terms := by
  obtain ⟨st', tx', heq, -⟩ := step_cases s e
  rw [heq]

/-- The stored transaction id, when set, is the deterministically derived
one. -/
def txOk (s : NegotiationSession) : Prop :=
  s.txId = none ∨ s.txId = some (deriveTxId s.ownId s.peerId s.terms)

theorem step_txOk (s : NegotiationSession) (e : SessEvent) (h : txOk s) :
    txOk ((s.step e).1) := by
  obtain ⟨st', tx', heq, htx⟩ := step_cases s e
  rw [txOk, heq]
  rcases htx with h1 | h2
  · rw [h1]
    exact h
  · rw [h2]
    exact Or.inr rfl

theorem step_rank_mono (s : NegotiationSession) (e : SessEvent) :
    s.state.rank ≤ (s.step e).1.state.rank := by
  cases e with
  | timeout =>
      show s.state.rank ≤ SessState.rank .ABORTED
      cases s.state <;> decide
  | startCFP =>
      by_cases h : s.state = .INIT
      · simp only [NegotiationSession.step]
        rw [if_pos h, h]
        show SessState.rank .INIT ≤ SessState.rank .CFP_SENT
        decide
      · simp only [NegotiationSession.step]
        rw [if_neg h]
  | recvCFP =>
      by_cases h : s.state = .INIT
      · simp only [NegotiationSession.step]
        rw [if_pos h, h]
        show SessState.rank .INIT ≤ SessState.rank .PROPOSED
        decide
      · simp only [NegotiationSession.step]
        rw [if_neg h]
  | recvProposal ok =>
      by_cases h : s.state = .CFP_SENT
      · simp only [NegotiationSession.step]
        rw [if_pos h, h]
        cases ok with
        | false =>
            show SessState.rank .CFP_SENT ≤ SessState.rank .ABORTED
            decide
        | true =>
            show SessState.rank .CFP_SENT ≤ SessState.rank .PROPOSED
            decide
      · simp only [NegotiationSession.step]
        rw [if_neg h]
  | decide profitable =>
      by_cases h : s.state = .PROPOSED
      · simp only [NegotiationSession.step]
        rw [if_pos h, h]
        cases profitable with
        | false =>
            show SessState.rank .PROPOSED ≤ SessState.rank .ABORTED
            decide
        | true =>
            show SessState.rank .PROPOSED ≤ SessState.rank .ACCEPTED
            decide
      · simp only [NegotiationSession.step]
        rw [if_neg h]
  | recvMatchedAccept =>
      by_cases h : s.state = .ACCEPTED
      · simp only [NegotiationSession.step]
        rw [if_pos h, h]
        show SessState.rank .ACCEPTED ≤ SessState.rank .MATCHED
        decide
      · simp only [NegotiationSession.step]
        rw [if_neg h]
  | retry =>
      by_cases h : s.state = .MATCHED
      · simp only [NegotiationSession.step]
        rw [if_pos h]
      · simp only [NegotiationSession.step]
        rw [if_neg h]
  | recvConfirmation tx =>
      by_cases h : s.state = .MATCHED ∧ s.txId = some tx
      · simp only [NegotiationSession.step]
        rw [if_pos h, h.1]
        show SessState.rank .MATCHED ≤ SessState.rank .COMMITTED
        decide
      · simp only [NegotiationSession.step]
        rw [if_neg h]

theorem step_emits_inv (s : NegotiationSession) (e : SessEvent) (tid : String)
    (h : (s.step e).2 = some tid) :
    (s.state = .ACCEPTED ∧ e = .recvMatchedAccept ∧ (s.step e).1.state = .MATCHED ∧
      tid = deriveTxId s.ownId s.peerId s.terms) ∨
    (s.state = .MATCHED ∧ e = .retry ∧ s.txId = some tid) := by
  cases e with
  | recvMatchedAccept =>
      by_cases hs : s.state = .ACCEPTED
      · left
        have hstep : s.step .recvMatchedAccept
            = ({ s with
                  state := SessState.MATCHED,
                  txId := some (deriveTxId s.ownId s.peerId s.terms) },
               some (deriveTxId s.ownId s.peerId s.terms)) := by
          simp only [NegotiationSession.step]
          rw [if_pos hs]
        rw [hstep] at h
        exact ⟨hs, rfl, by rw [hstep], (Option.some_inj.mp h).symm⟩
      · have hstep : s.step .recvMatchedAccept = (s, none) := by
          simp only [NegotiationSession.step]
          rw [if_neg hs]
        rw [hstep] at h
        exact Option.noConfusion h
  | retry =>
      by_cases hs : s.state = .MATCHED
      · right
        have hstep : s.step .retry = (s, s.txId) := by
          simp only [NegotiationSession.step]
          rw [if_pos hs]
        rw [hstep] at h
        exact ⟨hs, rfl, h⟩
      · have hstep : s.step .retry = (s, none) := by
          simp only [NegotiationSession.step]
          rw [if_neg hs]
        rw [hstep] at h
        exact Option.noConfusion h
  | timeout => exact Option.noConfusion h
  | startCFP =>
      by_cases hs : s.state = .INIT
      · have hstep : s.step .startCFP = ({ s with state := .CFP_SENT }, none) := by
          simp only [NegotiationSession.step]
          rw [if_pos hs]
        rw [hstep] at h
        exact Option.noConfusion h
      · have hstep : s.step .startCFP = (s, none) := by
          simp only [NegotiationSession.step]
          rw [if_neg hs]
        rw [hstep] at h
        exact Option.noConfusion h
  | recvCFP =>
      by_cases hs : s.state = .INIT
      · have hstep : s.step .recvCFP = ({ s with state := .PROPOSED }, none) := by
          simp only [NegotiationSession.step]
          rw [if_pos hs]
        rw [hstep] at h
        exact Option.noConfusion h
      · have hstep : s.step .recvCFP = (s, none) := by
          simp only [NegotiationSession.step]
          rw [if_neg hs]
        rw [hstep] at h
        exact Option.noConfusion h
  | recvProposal ok =>
      by_cases hs : s.state = .CFP_SENT
      · have hstep : s.step (.recvProposal ok)
            = ({ s with state := if ok then .PROPOSED else .ABORTED }, none) := by
          simp only [NegotiationSession.step]
          rw [if_pos hs]
        rw [hstep] at h
        exact Option.noConfusion h
      · have hstep : s.step (.recvProposal ok) = (s, none) := by
          simp only [NegotiationSession.step]
          rw [if_neg hs]
        rw [hstep] at h
        exact Option.noConfusion h
  | decide profitable =>
      by_cases hs : s.state = .PROPOSED
      · have hstep : s.step (.decide profitable)
            = ({ s with state := if profitable then .ACCEPTED else .ABORTED }, none) := by
          simp only [NegotiationSession.step]
          rw [if_pos hs]
        rw [hstep] at h
        exact Option.noConfusion h
      · have hstep : s.step (.decide profitable) = (s, none) := by
          simp only [NegotiationSession.step]
          rw [if_neg hs]
        rw [hstep] at h
        exact Option.noConfusion h
  | recvConfirmation tx =>
      by_cases hs : s.state = .MATCHED ∧ s.txId = some tx
      · have hstep : s.step (.recvConfirmation tx)
            = ({ s with state := .COMMITTED }, none) := by
          simp only [NegotiationSession.step]
          rw [if_pos hs]
        rw [hstep] at h
        exact Option.noConfusion h
      · have hstep : s.step (.recvConfirmation tx) = (s, none) := by
          simp only [NegotiationSession.step]
          rw [if_neg hs]
        rw [hstep] at h
        exact Option.noConfusion h

theorem enter_matched_emits (s : NegotiationSession) (e : SessEvent)
    (hpre : s.state ≠ .MATCHED) (hpost : (s.step e).1.state = .MATCHED) :
    (s.step e).2 = some (deriveTxId s.ownId s.peerId s.terms) := by
  cases e with
  | recvMatchedAccept =>
      by_cases hs : s.state = .ACCEPTED
      · have hstep : s.step .recvMatchedAccept
            = ({ s with
                  state := SessState.MATCHED,
                  txId := some (deriveTxId s.ownId s.peerId s.terms) },
               some (deriveTxId s.ownId s.peerId s.terms)) := by
          simp only [NegotiationSession.step]
          rw [if_pos hs]
        rw [hstep]
      · have hstep : s.step .recvMatchedAccept = (s, none) := by
          simp only [NegotiationSession.step]
          rw [if_neg hs]
        rw [hstep] at hpost
        exact absurd hpost hpre
  | timeout => exact SessState.noConfusion hpost
  | startCFP =>
      by_cases hs : s.state = .INIT
      · have hstep : s.step .startCFP = ({ s with state := .CFP_SENT }, none) := by
          simp only [NegotiationSession.step]
          rw [if_pos hs]
        rw [hstep] at hpost
        exact SessState.noConfusion hpost
      · have hstep : s.step .startCFP = (s, none) := by
          simp only [NegotiationSession.step]
          rw [if_neg hs]
        rw [hstep] at hpost
        exact absurd hpost hpre
  | recvCFP =>
      by_cases hs : s.state = .INIT
      · have hstep : s.step .recvCFP = ({ s with state := .PROPOSED }, none) := by
          simp only [NegotiationSession.step]
          rw [if_pos hs]
        rw [hstep] at hpost
        exact SessState.noConfusion hpost
      · have hstep : s.step .recvCFP = (s, none) := by
          simp only [NegotiationSession.step]
          rw [if_neg hs]
        rw [hstep] at hpost
        exact absurd hpost hpre
  | recvProposal ok =>
      by_cases hs : s.state = .CFP_SENT
      · have hstep : s.step (.recvProposal ok)
            = ({ s with state := if ok then .PROPOSED else .ABORTED }, none) := by
          simp only [NegotiationSession.step]
          rw [if_pos hs]
        rw [hstep] at hpost
        cases ok with
        | true => exact SessState.noConfusion hpost
        | false => exact SessState.noConfusion hpost
      · have hstep : s.step (.recvProposal ok) = (s, none) := by
          simp only [NegotiationSession.step]
          rw [if_neg hs]
        rw [hstep] at hpost
        exact absurd hpost hpre
  | decide profitable =>
      by_cases hs : s.state = .PROPOSED
      · have hstep : s.step (.decide profitable)
            = ({ s with state := if profitable then .ACCEPTED else .ABORTED }, none) := by
          simp only [NegotiationSession.step]
          rw [if_pos hs]
        rw [hstep] at hpost
        cases profitable with
        | true => exact SessState.noConfusion hpost
        | false => exact SessState.noConfusion hpost
      · have hstep : s.step (.decide profitable) = (s, none) := by
          simp only [NegotiationSession.step]
          rw [if_neg hs]
        rw [hstep] at hpost
        exact absurd hpost hpre
  | retry =>
      by_cases hs : s.state = .MATCHED
      · exact absurd hs hpre
      · have hstep : s.step .retry = (s, none) := by
          simp only [NegotiationSession.step]
          rw [if_neg hs]
        rw [hstep] at hpost
        exact absurd hpost hpre
  | recvConfirmation tx =>
      by_cases hs : s.state = .MATCHED ∧ s.txId = some tx
      · exact absurd hs.1 hpre
      · have hstep : s.step (.recvConfirmation tx) = (s, none) := by
          simp only [NegotiationSession.step]
          rw [if_neg hs]
        rw [hstep] at hpost
        exact absurd hpost hpre

theorem emissions_all (evs : List SessEvent) (s : NegotiationSession) (hok : txOk s) :
    ∀ tid ∈ s.emissions evs, tid = deriveTxId s.ownId s.peerId s.terms := by
  induction evs generalizing s with
  | nil => intro tid h; cases h
  | cons e rest ih =>
      intro tid h
      rw [show s.emissions (e :: rest)
          = (s.step e).2.toList ++ (s.step e).1.emissions rest from rfl] at h
      rcases List.mem_append.mp h with h1 | h2
      · have h1' : (s.step e).2 = some tid := by
          cases ho : (s.step e).2 with
          | none => rw [ho] at h1; cases h1
          | some t0 =>
              rw [ho] at h1
              cases h1 with
              | head => rfl
              | tail _ hx => cases hx
        rcases step_emits_inv s e tid h1' with ⟨-, -, -, htid⟩ | ⟨-, -, htx⟩
        · exact htid
        · rcases hok with hnone | hsome
          · rw [hnone] at htx
            exact Option.noConfusion htx
          · rw [hsome] at htx
            exact (Option.some_inj.mp htx).symm
      · have hrec := ih ((s.step e).1) (step_txOk s e hok) tid h2
        rw [step_ownId s e, step_peerId s e, step_terms s e] at hrec
        exact hrec

theorem matchedEntries_zero (evs : List SessEvent) (s : NegotiationSession)
    (h4 : 4 ≤ s.state.rank) : s.matchedEntries evs = 0 := by
  induction evs generalizing s with
  | nil => rfl
  | cons e rest ih =>
      show (if s.state ≠ .MATCHED ∧ (s.step e).1.state = .MATCHED then 1 else 0)
          + (s.step e).1.matchedEntries rest = 0
      have hpost4 : 4 ≤ (s.step e).1.state.rank := le_trans h4 (step_rank_mono s e)
      have hhead : ¬ (s.state ≠ .MATCHED ∧ (s.step e).1.state = .MATCHED) := by
        rintro ⟨hne, hm⟩
        have h5 : 5 ≤ s.state.rank := by
          cases hs : s.state
          · rw [hs] at h4; exact absurd h4 (by decide)
          · rw [hs] at h4; exact absurd h4 (by decide)
          · rw [hs] at h4; exact absurd h4 (by decide)
          · rw [hs] at h4; exact absurd h4 (by decide)
          · exact absurd hs hne
          · decide
          · decide
        have hmono := step_rank_mono s e
        rw [hm] at hmono
        have : (5 : Nat) ≤ SessState.rank .MATCHED := le_trans h5 hmono
        exact absurd this (by decide)
      rw [if_neg hhead, Nat.zero_add]
      exact ih ((s.step e).1) hpost4

theorem matchedEntries_le_one (evs : List SessEvent) (s : NegotiationSession) :
    s.matchedEntries evs ≤ 1 := by
  induction evs generalizing s with
  | nil => exact Nat.zero_le 1
  | cons e rest ih =>
      show (if s.state ≠ .MATCHED ∧ (s.step e).1.state = .MATCHED then 1 else 0)
          + (s.step e).1.matchedEntries rest ≤ 1
      by_cases hh : s.state ≠ .MATCHED ∧ (s.step e).1.state = .MATCHED
      · rw [if_pos hh]
        have h4 : 4 ≤ (s.step e).1.state.rank := by
          rw [hh.2]
          exact Nat.le_refl 4
        rw [matchedEntries_zero rest ((s.step e).1) h4]
      · rw [if_neg hh, Nat.zero_add]
        exact ih ((s.step e).1)

/-- C8: a session emits a TransactionRequest exactly when it enters MATCHED
(from ACCEPTED, on MatchedAccept) or when it retries in MATCHED; every entry
into MATCHED emits the deterministically derived id; and along any trace of
a session with no stored id yet, all emitted requests carry the same derived
transactionId and MATCHED is entered at most once. -/
theorem claim_C8 :
    (∀ (s : NegotiationSession) (e : SessEvent) (tid : String),
      (s.step e).2 = some tid →
        (s.state = .ACCEPTED ∧ e = .recvMatchedAccept ∧ (s.step e).1.state = .MATCHED ∧
          tid = deriveTxId s.ownId s.peerId s.terms) ∨
        (s.state = .MATCHED ∧ e = .retry ∧ s.txId = some tid)) ∧
    (∀ (s : NegotiationSession) (e : SessEvent), s.state ≠ .MATCHED →
      (s.step e).1.state = .MATCHED →
      (s.step e).2 = some (deriveTxId s.ownId s.peerId s.terms)) ∧
    (∀ (s : NegotiationSession) (evs : List SessEvent), s.txId = none →
      (∀ tid ∈ s.emissions evs, tid = deriveTxId s.ownId s.peerId s.terms) ∧
      s.matchedEntries evs ≤ 1) :=
  ⟨step_emits_inv,
   enter_matched_emits,
   fun s evs h =>
     ⟨emissions_all evs s (Or.inl h), matchedEntries_le_one evs s⟩⟩

/-- Fixture: a fresh initiator session between a1 and a2. -/
def sessW : NegotiationSession :=
  { ownId := "a1", peerId := "a2", terms := "t", state := .INIT, txId := none }

/-- Fixture: the same session already in the ACCEPTED state. -/
def sessAcc : NegotiationSession :=
  { ownId := "a1", peerId := "a2", terms := "t", state := .ACCEPTED, txId := none }

/-- Fixture: a session in MATCHED holding a stored transaction id. -/
def sessM : NegotiationSession :=
  { ownId := "a1", peerId := "a2", terms := "t", state := .MATCHED,
    txId := some "tid0" }

/-- C8 witness: a concrete full negotiation trace of a fresh session enters
MATCHED at most once; the ACCEPTED session emits the derived id on
MatchedAccept; and a retry in MATCHED re-emits exactly the stored id. -/
theorem claim_C8_witness :
    sessW.matchedEntries [SessEvent.startCFP, SessEvent.recvProposal true,
      SessEvent.decide true, SessEvent.recvMatchedAccept, SessEvent.retry] ≤ 1 ∧
    (sessAcc.step SessEvent.recvMatchedAccept).2 = some (deriveTxId "a1" "a2" "t") ∧
    ((sessM.state = SessState.ACCEPTED ∧ SessEvent.retry = SessEvent.recvMatchedAccept ∧
        (sessM.step SessEvent.retry).1.state = SessState.MATCHED ∧
        "tid0" = deriveTxId sessM.ownId sessM.peerId sessM.terms) ∨
      (sessM.state = SessState.MATCHED ∧ SessEvent.retry = SessEvent.retry ∧
        sessM.txId = some "tid0")) :=
  ⟨(claim_C8.2.2 sessW [SessEvent.startCFP, SessEvent.recvProposal true,
      SessEvent.decide true, SessEvent.recvMatchedAccept, SessEvent.retry] rfl).2,
   claim_C8.2.1 sessAcc SessEvent.recvMatchedAccept (by decide) (by decide),
   claim_C8.1 sessM SessEvent.retry "tid0" (by decide)⟩

end AgentsTac
